import Mathlib

/-!
# Broadcast service of the Telegram shop bot

A shallow embedding of `internal/broadcast/service.go`: the three handlers
`HandleBroadcastCommand`, `HandleTextMessage`, `HandleCallback` and the fan-out
`sendToAllUsers`. What the collaborators answer (the list or error returned by
`CustomerRepository.FindAll`, the error of each transport call, the texts of
the translation manager) is a parameter of the handlers.

* The two `sync.Map` fields of the service are total lookup functions on chat
  identifiers (`Sessions`); the handlers pass the tables explicitly.
* Every outgoing call (directory query, transport call, log record) is appended
  to a trace of `Effect`s, in program order.
* A Go run-time fault (nil dereference, index out of range) is the `error`
  branch of `Except Fault`.
* Chat and user identifiers are `int64` in the source; the code only compares
  them, so they are `Int` here.
-/

namespace Broadcast

/-! ## Data model -/

/-- Run-time faults of the Go code that abort the handler goroutine. -/
inductive Fault where
  | nilDereference
  | indexOutOfRange
  deriving DecidableEq, Repr

/-- The fields of `models.User` that the service reads. -/
structure User where
  ID : Int
  LanguageCode : String
  deriving DecidableEq, Repr

/-- The field of `models.Chat` that the service reads. -/
structure Chat where
  ID : Int
  deriving DecidableEq, Repr

/-- The field of `models.PhotoSize` that the service reads. -/
structure PhotoSize where
  FileID : String
  deriving DecidableEq, Repr

/-- The field of `models.Document` that the service reads. -/
structure Document where
  FileID : String
  deriving DecidableEq, Repr

/-- The fields of `models.Message` that the service reads. `From` and
`Document` are pointers in the library (`none` is nil); `Photo` is a slice,
where `none` is the nil slice and `some []` a present but empty one. -/
structure Message where
  From : Option User
  Chat : Chat
  Text : String
  Photo : Option (List PhotoSize)
  Caption : String
  Document : Option Document
  deriving DecidableEq, Repr

/-- The fields of `models.CallbackQuery` that the service reads. -/
structure CallbackQuery where
  From : User
  Data : String
  deriving DecidableEq, Repr

/-- The fields of `models.Update` that the service reads; both are pointers. -/
structure Update where
  Message : Option Message
  CallbackQuery : Option CallbackQuery
  deriving DecidableEq, Repr

/-- The fields of `database.Customer` that the fan-out reads. -/
structure Customer where
  ID : Int
  TelegramID : Int
  deriving DecidableEq, Repr

/-- One button of the inline keyboard (`models.InlineKeyboardButton`). -/
structure InlineKeyboardButton where
  Text : String
  CallbackData : String
  deriving DecidableEq, Repr

/-- Which bot handle a transport call goes through: the handler argument `b`
or the service field `s.telegramBot`. -/
inductive BotRef where
  | handler
  | service
  deriving DecidableEq, Repr

/-- Everything the service does to the outside world, in program order. -/
inductive Effect where
  /-- The query `s.customerRepository.FindAll(ctx)` -/
  | findAll
  /-- A `SendMessage` with chat, text and optional inline keyboard -/
  | sendMessage (bot : BotRef) (chatID : Int) (text : String)
      (markup : Option (List (List InlineKeyboardButton)))
  /-- A `s.telegramBot.SendPhoto` with chat, file reference and caption -/
  | sendPhoto (chatID : Int) (photo : String) (caption : String)
  /-- A `s.telegramBot.SendDocument` with chat, file reference and caption -/
  | sendDocument (chatID : Int) (document : String) (caption : String)
  /-- The `slog.Error` after a failed `FindAll` -/
  | logFetchError (err : String)
  /-- The `slog.Error` after a failed transport call, with the recipient -/
  | logSendError (userID : Int) (err : String)
  /-- The `slog.Warn` for a draft with no delivery method, with the recipient -/
  | logUnsupported (userID : Int)
  deriving DecidableEq, Repr

/-- The immutable fields of `BroadcastService`: the admin identity and the
translation manager, whose `GetText(lang, key)` is taken as a function. -/
structure BroadcastService where
  adminID : Int
  tm : String → String → String

/-- What the collaborators answer during one dispatch: the result of
`FindAll` and, for the transport call made for the recipient at position `i`
of the list, the error it returns (`none` is a nil error). -/
structure Env where
  FindAll : Except String (List Customer)
  SendErr : Nat → Option String

/-- The mutable fields of `BroadcastService`: the two `sync.Map`s, keyed by
chat identifier. -/
structure Sessions where
  waitingMessages : Int → Option Bool
  pendingMessages : Int → Option Message

/-- The map operation `sync.Map.Store`. -/
def Store {α : Type} (m : Int → Option α) (k : Int) (v : α) : Int → Option α :=
  fun j => if j = k then some v else m j

/-- The map operation `sync.Map.Delete`. -/
def Delete {α : Type} (m : Int → Option α) (k : Int) : Int → Option α :=
  fun j => if j = k then none else m j

/-- The tables of a freshly constructed service (`NewBroadcastService`). -/
def emptySessions : Sessions :=
  { waitingMessages := fun _ => none, pendingMessages := fun _ => none }

/-! ## The handlers -/

/-- The helper `BroadcastService.sendText`: one `SendMessage` through `s.telegramBot`. -/
def sendText (chatID : Int) (text : String) : Effect :=
  Effect.sendMessage BotRef.service chatID text none

/-- The handler `BroadcastService.HandleBroadcastCommand`. The language is read through
`update.Message.From` before the nil test, so an absent message or sender
faults on the first line. -/
def HandleBroadcastCommand (svc : BroadcastService) (s : Sessions) (update : Update) :
    Except Fault (Sessions × List Effect) :=
  match update.Message with
  | none => Except.error Fault.nilDereference
  | some m =>
    match m.From with
    | none => Except.error Fault.nilDereference
    | some sender =>
      let lang := sender.LanguageCode
      if sender.ID ≠ svc.adminID then
        Except.ok (s, [sendText m.Chat.ID (svc.tm lang "broadcast_access_denied")])
      else
        Except.ok
          ({ s with waitingMessages := Store s.waitingMessages m.Chat.ID true },
           [sendText m.Chat.ID (svc.tm lang "broadcast_send_prompt")])

/-- The handler `BroadcastService.HandleTextMessage`. -/
def HandleTextMessage (svc : BroadcastService) (s : Sessions) (update : Update) :
    Except Fault (Sessions × List Effect) :=
  match update.Message with
  | none => Except.ok (s, [])
  | some m =>
    let chatID := m.Chat.ID
    match s.waitingMessages chatID with
    | none => Except.ok (s, [])
    | some _ =>
      let s1 : Sessions :=
        { waitingMessages := Delete s.waitingMessages chatID,
          pendingMessages := Store s.pendingMessages chatID m }
      match m.From with
      | none => Except.error Fault.nilDereference
      | some sender =>
        let lang := sender.LanguageCode
        Except.ok
          (s1,
           [Effect.sendMessage BotRef.handler chatID (svc.tm lang "broadcast_preview")
              (some [[{ Text := svc.tm lang "broadcast_send_button",
                        CallbackData := "broadcast_confirm" },
                      { Text := svc.tm lang "broadcast_cancel_button",
                        CallbackData := "broadcast_cancel" }]])])

/-- The `if err != nil` at the end of the loop body of `sendToAllUsers`. -/
def logIfError (c : Customer) : Option String → List Effect
  | none => []
  | some err => [Effect.logSendError c.TelegramID err]

/-- The body of the `for _, c := range customers` loop of `sendToAllUsers`,
for the recipient `c` at position `i`. -/
def sendToUser (env : Env) (msg : Message) (i : Nat) (c : Customer) :
    Except Fault (List Effect) :=
  if msg.Text ≠ "" then
    Except.ok
      (Effect.sendMessage BotRef.service c.TelegramID msg.Text none
        :: logIfError c (env.SendErr i))
  else
    match msg.Photo with
    | some sizes =>
      -- photo := msg.Photo[len(msg.Photo)-1]
      match sizes.getLast? with
      | none => Except.error Fault.indexOutOfRange
      | some photo =>
        Except.ok
          (Effect.sendPhoto c.TelegramID photo.FileID msg.Caption
            :: logIfError c (env.SendErr i))
    | none =>
      match msg.Document with
      | some doc =>
        Except.ok
          (Effect.sendDocument c.TelegramID doc.FileID msg.Caption
            :: logIfError c (env.SendErr i))
      | none => Except.ok [Effect.logUnsupported c.TelegramID]

/-- The `for _, c := range customers` loop of `sendToAllUsers`, from
position `i` on. -/
def sendLoop (env : Env) (msg : Message) : Nat → List Customer → Except Fault (List Effect)
  | _, [] => Except.ok []
  | i, c :: cs =>
    match sendToUser env msg i c with
    | Except.error f => Except.error f
    | Except.ok here =>
      match sendLoop env msg (i + 1) cs with
      | Except.error f => Except.error f
      | Except.ok rest => Except.ok (here ++ rest)

/-- The fan-out `BroadcastService.sendToAllUsers`. -/
def sendToAllUsers (env : Env) (msg : Message) : Except Fault (List Effect) :=
  match env.FindAll with
  | Except.error err => Except.ok [Effect.findAll, Effect.logFetchError err]
  | Except.ok customers =>
    match sendLoop env msg 0 customers with
    | Except.error f => Except.error f
    | Except.ok sent => Except.ok (Effect.findAll :: sent)

/-- The handler `BroadcastService.HandleCallback`. The session key is `cb.From.ID`. -/
def HandleCallback (svc : BroadcastService) (env : Env) (s : Sessions) (update : Update) :
    Except Fault (Sessions × List Effect) :=
  match update.CallbackQuery with
  | none => Except.error Fault.nilDereference
  | some cb =>
    let lang := cb.From.LanguageCode
    let chatID := cb.From.ID
    if cb.Data = "broadcast_confirm" then
      match s.pendingMessages chatID with
      | none => Except.ok (s, [sendText chatID (svc.tm lang "broadcast_no_message")])
      | some msg =>
        let s1 : Sessions := { s with pendingMessages := Delete s.pendingMessages chatID }
        match sendToAllUsers env msg with
        | Except.error f => Except.error f
        | Except.ok sent =>
          Except.ok
            (s1,
             sent ++ [Effect.sendMessage BotRef.handler chatID
                        (svc.tm lang "broadcast_sent") none])
    else if cb.Data = "broadcast_cancel" then
      Except.ok
        ({ s with pendingMessages := Delete s.pendingMessages chatID },
         [sendText chatID (svc.tm lang "broadcast_canceled")])
    else
      Except.ok (s, [])

/-! ## The event loop around the handlers -/

/-- The three inbound event classes. A confirmation choice carries what the
directory and the transport answer while it is handled. -/
inductive Event where
  | Invoke (update : Update)
  | CandidateMessage (update : Update)
  | ConfirmationChoice (env : Env) (update : Update)

/-- Routing of one event to its handler. -/
def step (svc : BroadcastService) (s : Sessions) : Event → Except Fault (Sessions × List Effect)
  | Event.Invoke update => HandleBroadcastCommand svc s update
  | Event.CandidateMessage update => HandleTextMessage svc s update
  | Event.ConfirmationChoice env update => HandleCallback svc env s update

/-- Handling a sequence of events one after the other; the traces are
concatenated and the first fault ends the run. -/
def run (svc : BroadcastService) : Sessions → List Event → Except Fault (Sessions × List Effect)
  | s, [] => Except.ok (s, [])
  | s, ev :: evs =>
    match step svc s ev with
    | Except.error f => Except.error f
    | Except.ok (s1, t1) =>
      match run svc s1 evs with
      | Except.error f => Except.error f
      | Except.ok (s2, t2) => Except.ok (s2, t1 ++ t2)

/-! ## Observations on sessions and traces -/

/-- The phase of the spec's state machine, read off the two tables: a chat
in `waitingMessages` is awaiting a draft (the test `HandleTextMessage` makes),
otherwise a chat in `pendingMessages` is awaiting confirmation. -/
inductive Phase where
  | NONE
  | AWAITING_DRAFT
  | AWAITING_CONFIRMATION
  deriving DecidableEq, Repr

/-- The phase of chat `k`. -/
def phase (s : Sessions) (k : Int) : Phase :=
  match s.waitingMessages k with
  | some _ => Phase.AWAITING_DRAFT
  | none =>
    match s.pendingMessages k with
    | some _ => Phase.AWAITING_CONFIRMATION
    | none => Phase.NONE

/-- No chat is in both tables at once. -/
def Exclusive (s : Sessions) : Prop :=
  ∀ k : Int, s.waitingMessages k = none ∨ s.pendingMessages k = none

/-- An authorized invoke meets no pending draft for its chat; the other
events are unconstrained. -/
def invokeFindsNoDraft (svc : BroadcastService) (s : Sessions) : Event → Prop
  | Event.Invoke update =>
    ∀ m sender, update.Message = some m → m.From = some sender →
      sender.ID = svc.adminID → s.pendingMessages m.Chat.ID = none
  | _ => True

/-- Every event of the sequence satisfies `invokeFindsNoDraft` in the state
it is handled in. -/
def orderly (svc : BroadcastService) : Sessions → List Event → Prop
  | _, [] => True
  | s, ev :: evs =>
    invokeFindsNoDraft svc s ev ∧
      match step svc s ev with
      | Except.ok (s1, _) => orderly svc s1 evs
      | Except.error _ => True

/-- The transport calls of a trace made through `s.telegramBot` with a
payload: the delivery attempts of a fan-out. -/
def isDelivery : Effect → Bool
  | Effect.sendMessage BotRef.service _ _ none => true
  | Effect.sendPhoto _ _ _ => true
  | Effect.sendDocument _ _ _ => true
  | _ => false

/-- The delivery attempts of a trace, in order. -/
def deliveries (t : List Effect) : List Effect :=
  t.filter isDelivery

/-- The target of a delivery attempt. -/
def deliveryTarget : Effect → Option Int
  | Effect.sendMessage BotRef.service chatID _ none => some chatID
  | Effect.sendPhoto chatID _ _ => some chatID
  | Effect.sendDocument chatID _ _ => some chatID
  | _ => none

/-- The targets of the delivery attempts of a trace, in order. -/
def attempts (t : List Effect) : List Int :=
  t.filterMap deliveryTarget

/-- The recipients with a recorded transport failure, in order. -/
def failures (t : List Effect) : List Int :=
  t.filterMap fun e =>
    match e with
    | Effect.logSendError userID _ => some userID
    | _ => none

/-- The recipients recorded as skipped, in order. -/
def skips (t : List Effect) : List Int :=
  t.filterMap fun e =>
    match e with
    | Effect.logUnsupported userID => some userID
    | _ => none

/-- The number of directory queries of a trace: one per dispatch. -/
def dispatches (t : List Effect) : Nat :=
  (t.filter fun e => decide (e = Effect.findAll)).length

/-- The draft has text, or a photo with at least one size, or (without a
photo) a document: the switch of `sendToAllUsers` reaches a transport call. -/
def supportedKind (msg : Message) : Bool :=
  if msg.Text ≠ "" then true
  else
    match msg.Photo with
    | some sizes => !sizes.isEmpty
    | none => msg.Document.isSome

/-- The index `len(msg.Photo)-1` is in range whenever the switch of
`sendToAllUsers` evaluates `msg.Photo[len(msg.Photo)-1]`. -/
def photoIndexInRange (msg : Message) : Bool :=
  if msg.Text ≠ "" then true
  else
    match msg.Photo with
    | some sizes => !sizes.isEmpty
    | none => true

/-- The trace of the recipient loop when every iteration makes the transport
call `call c` and then logs its error, if any; `i` is the position of the
first recipient. -/
def fanOutTrace (env : Env) (call : Customer → Effect) : Nat → List Customer → List Effect
  | _, [] => []
  | i, c :: cs => (call c :: logIfError c (env.SendErr i)) ++ fanOutTrace env call (i + 1) cs

/-- The recipients of the list whose transport call fails, in order; `i` is
the position of the first recipient. -/
def failingRecipients (env : Env) : Nat → List Customer → List Int
  | _, [] => []
  | i, c :: cs =>
    match env.SendErr i with
    | some _ => c.TelegramID :: failingRecipients env (i + 1) cs
    | none => failingRecipients env (i + 1) cs

/-! ## Concrete inputs -/

/-- A service whose admin is user 1 and whose texts are the lookup keys. -/
def shopService : BroadcastService :=
  { adminID := 1, tm := fun _ key => key }

/-- The admin, writing in English. -/
def adminUser : User :=
  { ID := 1, LanguageCode := "en" }

/-- Another user. -/
def otherUser : User :=
  { ID := 2, LanguageCode := "en" }

/-- A text message of `sender` in the private chat `chat`. -/
def textMessage (sender : User) (chat : Int) (text : String) : Message :=
  { From := some sender, Chat := { ID := chat }, Text := text, Photo := none,
    Caption := "", Document := none }

/-- An update carrying a message. -/
def messageUpdate (m : Message) : Update :=
  { Message := some m, CallbackQuery := none }

/-- An update carrying a button press of `sender` with action token `data`. -/
def callbackUpdate (sender : User) (data : String) : Update :=
  { Message := none, CallbackQuery := some { From := sender, Data := data } }

/-- Three recipients. -/
def threeCustomers : List Customer :=
  [{ ID := 1, TelegramID := 101 }, { ID := 2, TelegramID := 102 }, { ID := 3, TelegramID := 103 }]

/-- A directory with three recipients and a transport that never fails. -/
def calmEnv : Env :=
  { FindAll := Except.ok threeCustomers, SendErr := fun _ => none }

/-- A directory with three recipients and a transport whose second call
(position 1) fails. -/
def secondFailsEnv : Env :=
  { FindAll := Except.ok threeCustomers,
    SendErr := fun i => if i = 1 then some "blocked" else none }

/-- A photo draft with two sizes and a caption. -/
def photoMessage : Message :=
  { From := some adminUser, Chat := { ID := 1 }, Text := "",
    Photo := some [{ FileID := "small" }, { FileID := "large" }],
    Caption := "look", Document := none }

/-- A document draft with a caption. -/
def documentMessage : Message :=
  { From := some adminUser, Chat := { ID := 1 }, Text := "", Photo := none,
    Caption := "read", Document := some { FileID := "file" } }

/-- A draft with no text, no photo and no document (a sticker, say). -/
def stickerMessage : Message :=
  { From := some adminUser, Chat := { ID := 1 }, Text := "", Photo := none,
    Caption := "", Document := none }

/-- A draft without text whose photo-size list is present but empty. -/
def emptyPhotoMessage : Message :=
  { From := some adminUser, Chat := { ID := 1 }, Text := "", Photo := some [],
    Caption := "", Document := none }

/-! ## Faults (C10) -/

/-- C10 (the code faults): an Invoke update whose message is absent makes
`HandleBroadcastCommand` dereference nil on its first line, whatever the
tables hold, and a draft without text whose photo-size list is present but
empty makes `sendToAllUsers` index out of range as soon as the directory
returns a recipient. -/
theorem faults_on_absent_message_and_empty_photo
    (svc : BroadcastService) (s : Sessions) (cq : Option CallbackQuery)
    (sender : Option User) (chat : Chat) (caption : String) (doc : Option Document)
    (c : Customer) (cs : List Customer) (sendErr : Nat → Option String) :
    HandleBroadcastCommand svc s { Message := none, CallbackQuery := cq }
        = Except.error Fault.nilDereference ∧
      sendToAllUsers { FindAll := Except.ok (c :: cs), SendErr := sendErr }
          { From := sender, Chat := chat, Text := "", Photo := some [],
            Caption := caption, Document := doc }
        = Except.error Fault.indexOutOfRange := by
  constructor
  · rfl
  · simp [sendToAllUsers, sendLoop, sendToUser]

/-! ## The recipient loop -/

theorem sendLoop_eq_fanOutTrace (env : Env) (msg : Message) (call : Customer → Effect)
    (h : ∀ i c, sendToUser env msg i c
      = Except.ok (call c :: logIfError c (env.SendErr i)))
    (cs : List Customer) (i : Nat) :
    sendLoop env msg i cs = Except.ok (fanOutTrace env call i cs) := by
  induction cs generalizing i with
  | nil => rfl
  | cons c cs ih => simp [sendLoop, fanOutTrace, h, ih]

theorem deliveries_logIfError (c : Customer) (e : Option String) :
    deliveries (logIfError c e) = [] := by
  cases e <;> rfl

theorem attempts_logIfError (c : Customer) (e : Option String) :
    attempts (logIfError c e) = [] := by
  cases e <;> rfl

theorem skips_logIfError (c : Customer) (e : Option String) :
    skips (logIfError c e) = [] := by
  cases e <;> rfl

theorem dispatches_logIfError (c : Customer) (e : Option String) :
    dispatches (logIfError c e) = 0 := by
  cases e <;> rfl

theorem deliveries_append (t u : List Effect) :
    deliveries (t ++ u) = deliveries t ++ deliveries u := by
  simp [deliveries]

theorem attempts_append (t u : List Effect) :
    attempts (t ++ u) = attempts t ++ attempts u := by
  simp [attempts]

theorem failures_append (t u : List Effect) :
    failures (t ++ u) = failures t ++ failures u := by
  simp [failures]

theorem skips_append (t u : List Effect) :
    skips (t ++ u) = skips t ++ skips u := by
  simp [skips]

theorem dispatches_append (t u : List Effect) :
    dispatches (t ++ u) = dispatches t + dispatches u := by
  simp [dispatches]

theorem deliveries_fanOutTrace (env : Env) (call : Customer → Effect)
    (h : ∀ c, isDelivery (call c) = true) (cs : List Customer) (i : Nat) :
    deliveries (fanOutTrace env call i cs) = cs.map call := by
  induction cs generalizing i with
  | nil => rfl
  | cons c cs ih =>
    have hc : deliveries [call c] = [call c] := by simp [deliveries, h]
    have hsplit : fanOutTrace env call i (c :: cs)
        = [call c] ++ (logIfError c (env.SendErr i) ++ fanOutTrace env call (i + 1) cs) := by
      simp [fanOutTrace]
    rw [hsplit, deliveries_append, deliveries_append, hc, deliveries_logIfError, ih]
    simp

theorem observations_of_delivery (e : Effect) (h : isDelivery e = true) :
    failures [e] = [] ∧ skips [e] = [] ∧ dispatches [e] = 0 := by
  cases e with
  | sendMessage bot chatID text markup => simp [failures, skips, dispatches]
  | sendPhoto chatID photo caption => simp [failures, skips, dispatches]
  | sendDocument chatID document caption => simp [failures, skips, dispatches]
  | findAll => simp [isDelivery] at h
  | logFetchError err => simp [isDelivery] at h
  | logSendError userID err => simp [isDelivery] at h
  | logUnsupported userID => simp [isDelivery] at h

theorem attempts_fanOutTrace (env : Env) (call : Customer → Effect)
    (h : ∀ c, deliveryTarget (call c) = some c.TelegramID) (cs : List Customer) (i : Nat) :
    attempts (fanOutTrace env call i cs) = cs.map fun c => c.TelegramID := by
  induction cs generalizing i with
  | nil => rfl
  | cons c cs ih =>
    have hc : attempts [call c] = [c.TelegramID] := by simp [attempts, h]
    have hsplit : fanOutTrace env call i (c :: cs)
        = [call c] ++ (logIfError c (env.SendErr i) ++ fanOutTrace env call (i + 1) cs) := by
      simp [fanOutTrace]
    rw [hsplit, attempts_append, attempts_append, hc, attempts_logIfError, ih]
    simp

theorem failures_fanOutTrace (env : Env) (call : Customer → Effect)
    (h : ∀ c, isDelivery (call c) = true) (cs : List Customer) (i : Nat) :
    failures (fanOutTrace env call i cs) = failingRecipients env i cs := by
  induction cs generalizing i with
  | nil => rfl
  | cons c cs ih =>
    have hc : failures [call c] = [] := (observations_of_delivery _ (h c)).1
    have hsplit : fanOutTrace env call i (c :: cs)
        = [call c] ++ (logIfError c (env.SendErr i) ++ fanOutTrace env call (i + 1) cs) := by
      simp [fanOutTrace]
    rw [hsplit, failures_append, failures_append, hc, ih]
    cases hi : env.SendErr i <;> simp [failingRecipients, hi, logIfError, failures]

theorem skips_fanOutTrace (env : Env) (call : Customer → Effect)
    (h : ∀ c, isDelivery (call c) = true) (cs : List Customer) (i : Nat) :
    skips (fanOutTrace env call i cs) = [] := by
  induction cs generalizing i with
  | nil => rfl
  | cons c cs ih =>
    have hc : skips [call c] = [] := (observations_of_delivery _ (h c)).2.1
    have hsplit : fanOutTrace env call i (c :: cs)
        = [call c] ++ (logIfError c (env.SendErr i) ++ fanOutTrace env call (i + 1) cs) := by
      simp [fanOutTrace]
    rw [hsplit, skips_append, skips_append, hc, skips_logIfError, ih]
    simp

theorem dispatches_fanOutTrace (env : Env) (call : Customer → Effect)
    (h : ∀ c, isDelivery (call c) = true) (cs : List Customer) (i : Nat) :
    dispatches (fanOutTrace env call i cs) = 0 := by
  induction cs generalizing i with
  | nil => rfl
  | cons c cs ih =>
    have hc : dispatches [call c] = 0 := (observations_of_delivery _ (h c)).2.2
    have hsplit : fanOutTrace env call i (c :: cs)
        = [call c] ++ (logIfError c (env.SendErr i) ++ fanOutTrace env call (i + 1) cs) := by
      simp [fanOutTrace]
    rw [hsplit, dispatches_append, dispatches_append, hc, dispatches_logIfError, ih]

/-- A draft of a supported kind selects, for every recipient, one transport
call aimed at that recipient. -/
theorem sendToUser_of_supportedKind (env : Env) (msg : Message)
    (h : supportedKind msg = true) :
    ∃ call : Customer → Effect,
      (∀ c, isDelivery (call c) = true) ∧
      (∀ c, deliveryTarget (call c) = some c.TelegramID) ∧
      ∀ i c, sendToUser env msg i c
        = Except.ok (call c :: logIfError c (env.SendErr i)) := by
  by_cases ht : msg.Text = ""
  · cases hp : msg.Photo with
    | some sizes =>
      cases hl : sizes.getLast? with
      | none =>
        have : sizes = [] := by simpa using hl
        simp [supportedKind, ht, hp, this] at h
      | some photo =>
        refine ⟨fun c => Effect.sendPhoto c.TelegramID photo.FileID msg.Caption, ?_, ?_, ?_⟩
        · intro c; rfl
        · intro c; rfl
        · intro i c; simp [sendToUser, ht, hp, hl]
    | none =>
      cases hd : msg.Document with
      | none => simp [supportedKind, ht, hp, hd] at h
      | some doc =>
        refine ⟨fun c => Effect.sendDocument c.TelegramID doc.FileID msg.Caption, ?_, ?_, ?_⟩
        · intro c; rfl
        · intro c; rfl
        · intro i c; simp [sendToUser, ht, hp, hd]
  · refine ⟨fun c => Effect.sendMessage BotRef.service c.TelegramID msg.Text none, ?_, ?_, ?_⟩
    · intro c; rfl
    · intro c; rfl
    · intro i c; simp [sendToUser, ht]

theorem sendToAllUsers_eq_fanOutTrace (env : Env) (msg : Message) (cs : List Customer)
    (call : Customer → Effect) (hdir : env.FindAll = Except.ok cs)
    (h : ∀ i c, sendToUser env msg i c
      = Except.ok (call c :: logIfError c (env.SendErr i))) :
    sendToAllUsers env msg = Except.ok (Effect.findAll :: fanOutTrace env call 0 cs) := by
  simp [sendToAllUsers, hdir, sendLoop_eq_fanOutTrace env msg call h]

theorem sendLoop_unsupported (env : Env) (msg : Message) (ht : msg.Text = "")
    (hp : msg.Photo = none) (hd : msg.Document = none) (cs : List Customer) (i : Nat) :
    sendLoop env msg i cs
      = Except.ok (cs.map fun c => Effect.logUnsupported c.TelegramID) := by
  induction cs generalizing i with
  | nil => rfl
  | cons c cs ih => simp [sendLoop, sendToUser, ht, hp, hd, ih]

theorem observations_of_skips (cs : List Customer) :
    deliveries (Effect.findAll :: cs.map fun c => Effect.logUnsupported c.TelegramID) = [] ∧
      skips (Effect.findAll :: cs.map fun c => Effect.logUnsupported c.TelegramID)
        = (cs.map fun c => c.TelegramID) ∧
      failures (Effect.findAll :: cs.map fun c => Effect.logUnsupported c.TelegramID) = [] := by
  induction cs with
  | nil => exact ⟨rfl, rfl, rfl⟩
  | cons c cs ih =>
    obtain ⟨h1, h2, h3⟩ := ih
    refine ⟨?_, ?_, ?_⟩
    · simp only [deliveries, List.map_cons, List.filter_cons, isDelivery] at h1 ⊢
      simpa using h1
    · simp only [skips, List.map_cons, List.filterMap_cons] at h2 ⊢
      simpa using h2
    · simp only [failures, List.map_cons, List.filterMap_cons] at h3 ⊢
      simp

/-- A draft of a supported kind is delivered along the whole list. -/
theorem sendToAllUsers_supported_completes (env : Env) (msg : Message) (cs : List Customer)
    (hdir : env.FindAll = Except.ok cs) (hkind : supportedKind msg = true) :
    ∃ t, sendToAllUsers env msg = Except.ok t ∧ dispatches t = 1 := by
  obtain ⟨call, hdel, _, hbody⟩ := sendToUser_of_supportedKind env msg hkind
  refine ⟨_, sendToAllUsers_eq_fanOutTrace env msg cs call hdir hbody, ?_⟩
  have hsplit : Effect.findAll :: fanOutTrace env call 0 cs
      = [Effect.findAll] ++ fanOutTrace env call 0 cs := rfl
  rw [hsplit, dispatches_append, dispatches_fanOutTrace env call hdel]
  rfl

/-! ## Fan-out (C1, C5, C8) -/

/-- C1 (failure isolation): when the directory returns the list `cs` and the
draft is of a supported kind (text, a photo with at least one size, or a
document), `sendToAllUsers` completes, its delivery attempts are aimed at the
recipients of `cs`, one each and in directory order, whatever errors the
individual transport calls return; the recorded failures are exactly the
recipients whose call failed, in order; nothing is skipped. -/
theorem sendToAllUsers_failure_isolation (env : Env) (msg : Message) (cs : List Customer)
    (hdir : env.FindAll = Except.ok cs) (hkind : supportedKind msg = true) :
    ∃ t, sendToAllUsers env msg = Except.ok t ∧
      attempts t = (cs.map fun c => c.TelegramID) ∧
      (attempts t).length = cs.length ∧
      failures t = failingRecipients env 0 cs ∧
      skips t = [] := by
  obtain ⟨call, hdel, htarget, hbody⟩ := sendToUser_of_supportedKind env msg hkind
  refine ⟨_, sendToAllUsers_eq_fanOutTrace env msg cs call hdir hbody, ?_⟩
  have hsplit : Effect.findAll :: fanOutTrace env call 0 cs
      = [Effect.findAll] ++ fanOutTrace env call 0 cs := rfl
  have ha : attempts (Effect.findAll :: fanOutTrace env call 0 cs)
      = cs.map fun c => c.TelegramID := by
    rw [hsplit, attempts_append, attempts_fanOutTrace env call htarget]
    rfl
  refine ⟨ha, ?_, ?_, ?_⟩
  · rw [ha, List.length_map]
  · rw [hsplit, failures_append, failures_fanOutTrace env call hdel]
    rfl
  · rw [hsplit, skips_append, skips_fanOutTrace env call hdel]
    rfl

/-- C1, at the three-recipient directory whose second transport call fails:
three attempts in directory order, one recorded failure (the second
recipient), so two successes. -/
theorem sendToAllUsers_failure_isolation_witness :
    secondFailsEnv.FindAll = Except.ok threeCustomers ∧
      supportedKind (textMessage adminUser 1 "Sale today!") = true ∧
      ∃ t, sendToAllUsers secondFailsEnv (textMessage adminUser 1 "Sale today!") = Except.ok t ∧
        attempts t = [101, 102, 103] ∧ failures t = [102] ∧ skips t = [] := by
  obtain ⟨t, hrun, ha, _, hf, hs⟩ :=
    sendToAllUsers_failure_isolation secondFailsEnv (textMessage adminUser 1 "Sale today!")
      threeCustomers rfl (by decide)
  exact ⟨rfl, by decide, t, hrun, ha, hf, hs⟩

/-- C5 (unsupported payload): when the directory returns the list `cs` and
the draft has no text, no photo and no document, `sendToAllUsers` completes
with one skip record per recipient and nothing else after the directory
query: no transport call and no failure record. -/
theorem sendToAllUsers_unsupported_skips (env : Env) (msg : Message) (cs : List Customer)
    (hdir : env.FindAll = Except.ok cs) (ht : msg.Text = "") (hp : msg.Photo = none)
    (hd : msg.Document = none) :
    sendToAllUsers env msg
        = Except.ok (Effect.findAll :: cs.map fun c => Effect.logUnsupported c.TelegramID) ∧
      deliveries (Effect.findAll :: cs.map fun c => Effect.logUnsupported c.TelegramID) = [] ∧
      skips (Effect.findAll :: cs.map fun c => Effect.logUnsupported c.TelegramID)
        = (cs.map fun c => c.TelegramID) ∧
      failures (Effect.findAll :: cs.map fun c => Effect.logUnsupported c.TelegramID) = [] := by
  refine ⟨?_, ?_, ?_, ?_⟩
  · simp [sendToAllUsers, hdir, sendLoop_unsupported env msg ht hp hd]
  · exact (observations_of_skips cs).1
  · exact (observations_of_skips cs).2.1
  · exact (observations_of_skips cs).2.2

/-- C5, at a sticker draft and the three-recipient directory: three skips, no
transport call, no failure. -/
theorem sendToAllUsers_unsupported_skips_witness :
    sendToAllUsers calmEnv stickerMessage
        = Except.ok [Effect.findAll, Effect.logUnsupported 101, Effect.logUnsupported 102,
            Effect.logUnsupported 103] ∧
      skips [Effect.findAll, Effect.logUnsupported 101, Effect.logUnsupported 102,
            Effect.logUnsupported 103] = [101, 102, 103] :=
  have h := sendToAllUsers_unsupported_skips calmEnv stickerMessage threeCustomers rfl rfl rfl rfl
  ⟨h.1, h.2.2.1⟩

/-- C8 (delivery method by draft kind): when the directory returns the list
`cs`, the delivery attempts of `sendToAllUsers` are, one per recipient and in
order: for a draft with non-empty text, a send-text call with the draft's
text; for a draft without text whose photo list has the last entry `photo`, a
send-photo call with that entry's file reference and the draft's caption; for
a draft without text and photo that has a document, a send-document call with
the document's file reference and the draft's caption; each aimed at the
recipient's `TelegramID`. -/
theorem sendToAllUsers_delivery_by_kind (env : Env) (msg : Message) (cs : List Customer)
    (hdir : env.FindAll = Except.ok cs) :
    (msg.Text ≠ "" →
      ∃ t, sendToAllUsers env msg = Except.ok t ∧
        deliveries t
          = cs.map fun c => Effect.sendMessage BotRef.service c.TelegramID msg.Text none) ∧
    (∀ sizes photo, msg.Text = "" → msg.Photo = some sizes → sizes.getLast? = some photo →
      ∃ t, sendToAllUsers env msg = Except.ok t ∧
        deliveries t
          = cs.map fun c => Effect.sendPhoto c.TelegramID photo.FileID msg.Caption) ∧
    (∀ doc, msg.Text = "" → msg.Photo = none → msg.Document = some doc →
      ∃ t, sendToAllUsers env msg = Except.ok t ∧
        deliveries t
          = cs.map fun c => Effect.sendDocument c.TelegramID doc.FileID msg.Caption) := by
  have key : ∀ call : Customer → Effect, (∀ c, isDelivery (call c) = true) →
      (∀ i c, sendToUser env msg i c
        = Except.ok (call c :: logIfError c (env.SendErr i))) →
      ∃ t, sendToAllUsers env msg = Except.ok t ∧ deliveries t = cs.map call := by
    intro call hdel hbody
    refine ⟨_, sendToAllUsers_eq_fanOutTrace env msg cs call hdir hbody, ?_⟩
    have hsplit : Effect.findAll :: fanOutTrace env call 0 cs
        = [Effect.findAll] ++ fanOutTrace env call 0 cs := rfl
    rw [hsplit, deliveries_append, deliveries_fanOutTrace env call hdel]
    rfl
  refine ⟨?_, ?_, ?_⟩
  · intro ht
    exact key _ (fun _ => rfl) (fun i c => by simp [sendToUser, ht])
  · intro sizes photo ht hp hl
    exact key _ (fun _ => rfl) (fun i c => by simp [sendToUser, ht, hp, hl])
  · intro doc ht hp hd
    exact key _ (fun _ => rfl) (fun i c => by simp [sendToUser, ht, hp, hd])

/-- C8, at a text draft, a photo draft with two sizes and a document draft,
each sent to the three-recipient directory. -/
theorem sendToAllUsers_delivery_by_kind_witness :
    (∃ t, sendToAllUsers calmEnv (textMessage adminUser 1 "Sale today!") = Except.ok t ∧
        deliveries t
          = [Effect.sendMessage BotRef.service 101 "Sale today!" none,
             Effect.sendMessage BotRef.service 102 "Sale today!" none,
             Effect.sendMessage BotRef.service 103 "Sale today!" none]) ∧
    (∃ t, sendToAllUsers calmEnv photoMessage = Except.ok t ∧
        deliveries t
          = [Effect.sendPhoto 101 "large" "look", Effect.sendPhoto 102 "large" "look",
             Effect.sendPhoto 103 "large" "look"]) ∧
    (∃ t, sendToAllUsers calmEnv documentMessage = Except.ok t ∧
        deliveries t
          = [Effect.sendDocument 101 "file" "read", Effect.sendDocument 102 "file" "read",
             Effect.sendDocument 103 "file" "read"]) :=
  ⟨(sendToAllUsers_delivery_by_kind calmEnv (textMessage adminUser 1 "Sale today!")
      threeCustomers rfl).1 (by decide),
   (sendToAllUsers_delivery_by_kind calmEnv photoMessage threeCustomers rfl).2.1
      [{ FileID := "small" }, { FileID := "large" }] { FileID := "large" } rfl rfl rfl,
   (sendToAllUsers_delivery_by_kind calmEnv documentMessage threeCustomers rfl).2.2
      { FileID := "file" } rfl rfl rfl⟩

/-! ## The session tables -/

theorem Store_same {α : Type} (m : Int → Option α) (k : Int) (v : α) :
    Store m k v k = some v := by
  simp [Store]

theorem Delete_same {α : Type} (m : Int → Option α) (k : Int) :
    Delete m k k = none := by
  simp [Delete]

theorem Delete_Delete {α : Type} (m : Int → Option α) (k : Int) :
    Delete (Delete m k) k = Delete m k := by
  funext j
  by_cases h : j = k <;> simp [Delete, h]

theorem Delete_Store {α : Type} (m : Int → Option α) (k : Int) (v : α) :
    Delete (Store m k v) k = Delete m k := by
  funext j
  by_cases h : j = k <;> simp [Delete, Store, h]

theorem exclusive_emptySessions : Exclusive emptySessions := by
  intro k
  exact Or.inl rfl

/-- Every loop iteration that completes leaves no directory query in the
trace. -/
theorem dispatches_sendLoop (env : Env) (msg : Message) (cs : List Customer) (i : Nat)
    (t : List Effect) (h : sendLoop env msg i cs = Except.ok t) : dispatches t = 0 := by
  induction cs generalizing i t with
  | nil =>
    simp [sendLoop] at h
    subst h
    rfl
  | cons c cs ih =>
    simp only [sendLoop] at h
    cases hu : sendToUser env msg i c with
    | error f => simp [hu] at h
    | ok here =>
      cases hr : sendLoop env msg (i + 1) cs with
      | error f => simp [hu, hr] at h
      | ok rest =>
        simp [hu, hr] at h
        subst h
        have hhere : dispatches here = 0 := by
          unfold sendToUser at hu
          split at hu
          · cases he : env.SendErr i <;> simp [he, logIfError] at hu <;> subst hu <;> rfl
          · split at hu
            · split at hu
              · simp at hu
              · cases he : env.SendErr i <;> simp [he, logIfError] at hu <;> subst hu <;> rfl
            · split at hu
              · cases he : env.SendErr i <;> simp [he, logIfError] at hu <;> subst hu <;> rfl
              · simp at hu
                subst hu
                rfl
        rw [dispatches_append, hhere, ih (i + 1) rest hr]

/-- A dispatch that completes queries the directory exactly once. -/
theorem dispatches_sendToAllUsers (env : Env) (msg : Message) (t : List Effect)
    (h : sendToAllUsers env msg = Except.ok t) : dispatches t = 1 := by
  unfold sendToAllUsers at h
  cases hd : env.FindAll with
  | error err =>
    simp [hd] at h
    subst h
    rfl
  | ok cs =>
    cases hl : sendLoop env msg 0 cs with
    | error f => simp [hd, hl] at h
    | ok sent =>
      simp [hd, hl] at h
      subst h
      have h0 := dispatches_sendLoop env msg cs 0 sent hl
      have hsplit : Effect.findAll :: sent = [Effect.findAll] ++ sent := rfl
      rw [hsplit, dispatches_append, h0]
      rfl

/-- The fan-out completes for every draft whose photo index is in range,
whatever the directory and the transport answer. -/
theorem sendToAllUsers_completes (env : Env) (msg : Message)
    (h : photoIndexInRange msg = true) : ∃ t, sendToAllUsers env msg = Except.ok t := by
  cases hd : env.FindAll with
  | error err =>
    exact ⟨[Effect.findAll, Effect.logFetchError err], by simp [sendToAllUsers, hd]⟩
  | ok cs =>
    by_cases hk : supportedKind msg = true
    · obtain ⟨t, ht, _⟩ := sendToAllUsers_supported_completes env msg cs hd hk
      exact ⟨t, ht⟩
    · have ht : msg.Text = "" := by
        by_contra hne
        simp [supportedKind, hne] at hk
      cases hp : msg.Photo with
      | some sizes =>
        simp [supportedKind, photoIndexInRange, ht, hp] at hk h
        exact absurd hk h
      | none =>
        cases hdoc : msg.Document with
        | some doc => simp [supportedKind, ht, hp, hdoc] at hk
        | none =>
          exact ⟨Effect.findAll :: cs.map fun c => Effect.logUnsupported c.TelegramID,
            by simp [sendToAllUsers, hd, sendLoop_unsupported env msg ht hp hdoc]⟩

/-! ## Invoke (C4) -/

/-- C4 (authorization): an Invoke whose sender is not the admin gets the
access-denied notice in its chat and leaves both session tables as they were;
an Invoke whose sender is the admin stores the chat in the awaiting-draft
table, gets the prompt, and the chat is in phase AWAITING_DRAFT. -/
theorem HandleBroadcastCommand_authorization (svc : BroadcastService) (s : Sessions)
    (m : Message) (sender : User) (cq : Option CallbackQuery) (hfrom : m.From = some sender) :
    (sender.ID ≠ svc.adminID →
      HandleBroadcastCommand svc s { Message := some m, CallbackQuery := cq }
        = Except.ok
            (s, [Effect.sendMessage BotRef.service m.Chat.ID
                  (svc.tm sender.LanguageCode "broadcast_access_denied") none])) ∧
    (sender.ID = svc.adminID →
      HandleBroadcastCommand svc s { Message := some m, CallbackQuery := cq }
        = Except.ok
            ({ s with waitingMessages := Store s.waitingMessages m.Chat.ID true },
             [Effect.sendMessage BotRef.service m.Chat.ID
                   (svc.tm sender.LanguageCode "broadcast_send_prompt") none]) ∧
      phase { s with waitingMessages := Store s.waitingMessages m.Chat.ID true } m.Chat.ID
        = Phase.AWAITING_DRAFT) := by
  constructor
  · intro hne
    simp [HandleBroadcastCommand, sendText, hfrom, hne]
  · intro heq
    constructor
    · simp [HandleBroadcastCommand, sendText, hfrom, heq]
    · simp [phase, Store]

/-- C4, at user 2 (not the admin) and at the admin, each invoking in the
private chat with the bot on a fresh service. -/
theorem HandleBroadcastCommand_authorization_witness :
    HandleBroadcastCommand shopService emptySessions
        (messageUpdate (textMessage otherUser 2 "/broadcast"))
      = Except.ok (emptySessions, [Effect.sendMessage BotRef.service 2
            "broadcast_access_denied" none]) ∧
    HandleBroadcastCommand shopService emptySessions
        (messageUpdate (textMessage adminUser 1 "/broadcast"))
      = Except.ok
          ({ emptySessions with waitingMessages := Store emptySessions.waitingMessages 1 true },
           [Effect.sendMessage BotRef.service 1 "broadcast_send_prompt" none]) :=
  ⟨(HandleBroadcastCommand_authorization shopService emptySessions
      (textMessage otherUser 2 "/broadcast") otherUser none rfl).1 (by decide),
   ((HandleBroadcastCommand_authorization shopService emptySessions
      (textMessage adminUser 1 "/broadcast") adminUser none rfl).2 rfl).1⟩

/-! ## Candidate message (C6) -/

/-- C6 (candidate messages outside AWAITING_DRAFT are ignored): a message in
a chat whose phase is NONE or AWAITING_CONFIRMATION leaves both tables as they
were and produces no call at all; a message with a sender in a chat whose
phase is AWAITING_DRAFT is stored as that chat's draft, the awaiting-draft
entry is removed and one preview with the two action tokens is sent; and a
call is produced only in phase AWAITING_DRAFT. -/
theorem HandleTextMessage_only_when_awaiting_draft (svc : BroadcastService) (s : Sessions)
    (m : Message) (cq : Option CallbackQuery) :
    ((phase s m.Chat.ID = Phase.NONE ∨ phase s m.Chat.ID = Phase.AWAITING_CONFIRMATION) →
      HandleTextMessage svc s { Message := some m, CallbackQuery := cq } = Except.ok (s, [])) ∧
    (∀ sender, phase s m.Chat.ID = Phase.AWAITING_DRAFT → m.From = some sender →
      HandleTextMessage svc s { Message := some m, CallbackQuery := cq }
        = Except.ok
            ({ waitingMessages := Delete s.waitingMessages m.Chat.ID,
               pendingMessages := Store s.pendingMessages m.Chat.ID m },
             [Effect.sendMessage BotRef.handler m.Chat.ID
                (svc.tm sender.LanguageCode "broadcast_preview")
                (some [[{ Text := svc.tm sender.LanguageCode "broadcast_send_button",
                          CallbackData := "broadcast_confirm" },
                        { Text := svc.tm sender.LanguageCode "broadcast_cancel_button",
                          CallbackData := "broadcast_cancel" }]])]) ∧
      Delete s.waitingMessages m.Chat.ID m.Chat.ID = none ∧
      Store s.pendingMessages m.Chat.ID m m.Chat.ID = some m) ∧
    (∀ s1 t, HandleTextMessage svc s { Message := some m, CallbackQuery := cq }
        = Except.ok (s1, t) →
      t ≠ [] → phase s m.Chat.ID = Phase.AWAITING_DRAFT) := by
  refine ⟨?_, ?_, ?_⟩
  · intro hphase
    cases hw : s.waitingMessages m.Chat.ID with
    | none => simp [HandleTextMessage, hw]
    | some b => simp [phase, hw] at hphase
  · intro sender hphase hfrom
    cases hw : s.waitingMessages m.Chat.ID with
    | none =>
      cases hp : s.pendingMessages m.Chat.ID <;> simp [phase, hw, hp] at hphase
    | some b =>
      exact ⟨by simp [HandleTextMessage, hw, hfrom], Delete_same _ _, Store_same _ _ _⟩
  · intro s1 t hrun hne
    cases hw : s.waitingMessages m.Chat.ID with
    | none =>
      simp [HandleTextMessage, hw] at hrun
      exact absurd hrun.2 hne
    | some b => simp [phase, hw]

/-- C6, at a chat holding a draft (a second message is ignored and the draft
stays) and at a chat awaiting a draft (the message is captured). -/
theorem HandleTextMessage_only_when_awaiting_draft_witness :
    HandleTextMessage shopService
        { waitingMessages := fun _ => none,
          pendingMessages := Store (fun _ => none) 1 (textMessage adminUser 1 "Sale today!") }
        (messageUpdate (textMessage adminUser 1 "hello"))
      = Except.ok
          ({ waitingMessages := fun _ => none,
             pendingMessages := Store (fun _ => none) 1 (textMessage adminUser 1 "Sale today!") },
           []) ∧
    HandleTextMessage shopService
        { waitingMessages := Store (fun _ => none) 1 true, pendingMessages := fun _ => none }
        (messageUpdate (textMessage adminUser 1 "Sale today!"))
      = Except.ok
          ({ waitingMessages := Delete (Store (fun _ => none) 1 true) 1,
             pendingMessages := Store (fun _ => none) 1 (textMessage adminUser 1 "Sale today!") },
           [Effect.sendMessage BotRef.handler 1 "broadcast_preview"
              (some [[{ Text := "broadcast_send_button", CallbackData := "broadcast_confirm" },
                      { Text := "broadcast_cancel_button",
                        CallbackData := "broadcast_cancel" }]])]) :=
  ⟨(HandleTextMessage_only_when_awaiting_draft shopService
      { waitingMessages := fun _ => none,
        pendingMessages := Store (fun _ => none) 1 (textMessage adminUser 1 "Sale today!") }
      (textMessage adminUser 1 "hello") none).1 (Or.inr (by simp [phase, Store, textMessage])),
   ((HandleTextMessage_only_when_awaiting_draft shopService
      { waitingMessages := Store (fun _ => none) 1 true, pendingMessages := fun _ => none }
      (textMessage adminUser 1 "Sale today!") none).2.1 adminUser
        (by simp [phase, Store, textMessage]) rfl).1⟩

/-! ## Confirmation choice (C2, C7) -/

theorem HandleCallback_confirm_without_draft (svc : BroadcastService) (env : Env)
    (s : Sessions) (sender : User) (msg : Option Message)
    (h : s.pendingMessages sender.ID = none) :
    HandleCallback svc env s
        { Message := msg,
          CallbackQuery := some { From := sender, Data := "broadcast_confirm" } }
      = Except.ok
          (s, [Effect.sendMessage BotRef.service sender.ID
                (svc.tm sender.LanguageCode "broadcast_no_message") none]) := by
  simp [HandleCallback, sendText, h]

theorem run_repeated_confirm_without_draft (svc : BroadcastService) (env : Env)
    (s : Sessions) (sender : User) (msg : Option Message)
    (h : s.pendingMessages sender.ID = none) (n : Nat) :
    run svc s
        (List.replicate n
          (Event.ConfirmationChoice env
            { Message := msg,
              CallbackQuery := some { From := sender, Data := "broadcast_confirm" } }))
      = Except.ok
          (s,
           List.replicate n
             (Effect.sendMessage BotRef.service sender.ID
                   (svc.tm sender.LanguageCode "broadcast_no_message") none)) := by
  induction n with
  | zero => rfl
  | succ n ih =>
    simp only [List.replicate_succ, run, step]
    rw [HandleCallback_confirm_without_draft svc env s sender msg h]
    simp only [ih]
    rfl

theorem dispatches_replicate_notice (n : Nat) (k : Int) (text : String) :
    dispatches (List.replicate n (Effect.sendMessage BotRef.service k text none)) = 0 := by
  induction n with
  | zero => rfl
  | succ n ih =>
    have hsplit : List.replicate (n + 1) (Effect.sendMessage BotRef.service k text none)
        = [Effect.sendMessage BotRef.service k
              text none] ++ List.replicate n (Effect.sendMessage BotRef.service k text none) := by
      simp [List.replicate_succ]
    rw [hsplit, dispatches_append, ih]
    rfl

/-- C2 (single-use draft consumption; the code faults on one draft shape):
when the operator `sender.ID` holds the draft `draft`, then, for every draft
but one without text whose photo list is present and empty, the first "send"
choice runs the fan-out on that draft, once (one directory query), removes the
draft and sends "broadcast sent", and after it any number `n` of further
"send" choices leave the tables as they are, run no fan-out and each send the
"no message pending" text to the operator; for a draft without text whose
photo list is present and empty, the first "send" choice faults with an index
out of range as soon as the directory returns a recipient. -/
theorem HandleCallback_confirm_single_use (svc : BroadcastService) (env env2 : Env)
    (s : Sessions) (sender : User) (msg : Option Message) (draft : Message) (n : Nat)
    (hdraft : s.pendingMessages sender.ID = some draft) :
    (photoIndexInRange draft = true →
      ∃ t, sendToAllUsers env draft = Except.ok t ∧
        HandleCallback svc env s
            { Message := msg,
              CallbackQuery := some { From := sender, Data := "broadcast_confirm" } }
          = Except.ok
              ({ s with pendingMessages := Delete s.pendingMessages sender.ID },
               t ++ [Effect.sendMessage BotRef.handler sender.ID
                       (svc.tm sender.LanguageCode "broadcast_sent") none]) ∧
        dispatches
            (t ++ [Effect.sendMessage BotRef.handler sender.ID
                     (svc.tm sender.LanguageCode "broadcast_sent") none]) = 1 ∧
        Delete s.pendingMessages sender.ID sender.ID = none ∧
        run svc { s with pendingMessages := Delete s.pendingMessages sender.ID }
            (List.replicate n
              (Event.ConfirmationChoice env2
                { Message := msg,
                  CallbackQuery := some { From := sender, Data := "broadcast_confirm" } }))
          = Except.ok
              ({ s with pendingMessages := Delete s.pendingMessages sender.ID },
               List.replicate n
                 (Effect.sendMessage BotRef.service sender.ID
                   (svc.tm sender.LanguageCode "broadcast_no_message") none)) ∧
        dispatches
            (List.replicate n
              (Effect.sendMessage BotRef.service sender.ID
                (svc.tm sender.LanguageCode "broadcast_no_message") none)) = 0) ∧
    (∀ c cs, photoIndexInRange draft = false → env.FindAll = Except.ok (c :: cs) →
      HandleCallback svc env s
          { Message := msg,
            CallbackQuery := some { From := sender, Data := "broadcast_confirm" } }
        = Except.error Fault.indexOutOfRange) := by
  constructor
  · intro hidx
    obtain ⟨t, ht⟩ := sendToAllUsers_completes env draft hidx
    refine ⟨t, ht, ?_, ?_, Delete_same _ _, ?_, dispatches_replicate_notice _ _ _⟩
    · simp [HandleCallback, sendText, hdraft, ht]
    · rw [dispatches_append, dispatches_sendToAllUsers env draft t ht]
      rfl
    · exact run_repeated_confirm_without_draft svc env2 _ sender msg (Delete_same _ _) n
  · intro c cs hidx hdir
    have ht : draft.Text = "" := by
      by_contra hne
      simp [photoIndexInRange, hne] at hidx
    have hp : draft.Photo = some [] := by
      cases hph : draft.Photo with
      | none => simp [photoIndexInRange, ht, hph] at hidx
      | some sizes =>
        cases sizes with
        | nil => rfl
        | cons a l => simp [photoIndexInRange, ht, hph] at hidx
    have hfault : sendToAllUsers env draft = Except.error Fault.indexOutOfRange := by
      simp [sendToAllUsers, hdir, sendLoop, sendToUser, ht, hp]
    simp [HandleCallback, hdraft, hfault]

/-- C2, at the admin with three recipients in the directory. Holding the draft
"Sale today!": the first "send" delivers to the three and sends "broadcast
sent", two further "send" choices each send the "no message pending" text.
Holding a draft without text whose photo list is present and empty: the first
"send" faults; so does the whole cycle of Invoke, capture of that message and
"send" on a fresh service. -/
theorem HandleCallback_confirm_single_use_witness :
    (∃ t, sendToAllUsers calmEnv (textMessage adminUser 1 "Sale today!") = Except.ok t ∧
      HandleCallback shopService calmEnv
          { waitingMessages := fun _ => none,
            pendingMessages := Store (fun _ => none) 1 (textMessage adminUser 1 "Sale today!") }
          (callbackUpdate adminUser "broadcast_confirm")
        = Except.ok
            ({ waitingMessages := fun _ => none,
               pendingMessages :=
                 Delete (Store (fun _ => none) 1 (textMessage adminUser 1 "Sale today!")) 1 },
             t ++ [Effect.sendMessage BotRef.handler 1 "broadcast_sent" none]) ∧
      run shopService
          { waitingMessages := fun _ => none,
            pendingMessages :=
              Delete (Store (fun _ => none) 1 (textMessage adminUser 1 "Sale today!")) 1 }
          [Event.ConfirmationChoice calmEnv (callbackUpdate adminUser "broadcast_confirm"),
           Event.ConfirmationChoice calmEnv (callbackUpdate adminUser "broadcast_confirm")]
        = Except.ok
            ({ waitingMessages := fun _ => none,
               pendingMessages :=
                 Delete (Store (fun _ => none) 1 (textMessage adminUser 1 "Sale today!")) 1 },
             [Effect.sendMessage BotRef.service 1 "broadcast_no_message" none,
              Effect.sendMessage BotRef.service 1 "broadcast_no_message" none])) ∧
    HandleCallback shopService calmEnv
        { waitingMessages := fun _ => none,
          pendingMessages := Store (fun _ => none) 1 emptyPhotoMessage }
        (callbackUpdate adminUser "broadcast_confirm")
      = Except.error Fault.indexOutOfRange ∧
    run shopService emptySessions
        [Event.Invoke (messageUpdate (textMessage adminUser 1 "/broadcast")),
         Event.CandidateMessage (messageUpdate emptyPhotoMessage),
         Event.ConfirmationChoice calmEnv (callbackUpdate adminUser "broadcast_confirm")]
      = Except.error Fault.indexOutOfRange := by
  refine ⟨?_, ?_, rfl⟩
  · obtain ⟨t, h1, h2, _, _, h5, _⟩ :=
      (HandleCallback_confirm_single_use shopService calmEnv calmEnv
        { waitingMessages := fun _ => none,
          pendingMessages := Store (fun _ => none) 1 (textMessage adminUser 1 "Sale today!") }
        adminUser none (textMessage adminUser 1 "Sale today!") 2
        (by simp [Store, adminUser])).1 (by decide)
    exact ⟨t, h1, h2, h5⟩
  · exact
      (HandleCallback_confirm_single_use shopService calmEnv calmEnv
        { waitingMessages := fun _ => none,
          pendingMessages := Store (fun _ => none) 1 emptyPhotoMessage }
        adminUser none emptyPhotoMessage 0 (by simp [Store, adminUser])).2
        { ID := 1, TelegramID := 101 }
        [{ ID := 2, TelegramID := 102 }, { ID := 3, TelegramID := 103 }] (by decide) rfl

/-- C7 as stated fails: after an authorized Invoke on a fresh service the
admin is in phase AWAITING_DRAFT, and a "cancel" choice leaves the admin in
AWAITING_DRAFT, not in NONE. -/
theorem cancel_while_awaiting_draft_counterexample :
    ∃ s t,
      run shopService emptySessions
          [Event.Invoke (messageUpdate (textMessage adminUser 1 "/broadcast")),
           Event.ConfirmationChoice calmEnv (callbackUpdate adminUser "broadcast_cancel")]
        = Except.ok (s, t) ∧
      phase s 1 = Phase.AWAITING_DRAFT ∧ phase s 1 ≠ Phase.NONE := by
  refine ⟨_, _, rfl, ?_, ?_⟩ <;> simp [phase, Store, emptySessions, textMessage]

/-- C7 as amended: for every session state and every operator, a "cancel"
choice removes that operator's draft, leaves the awaiting-draft table as it
was (so the phase afterwards is AWAITING_DRAFT when it was AWAITING_DRAFT and
NONE otherwise), reports "broadcast canceled" without any dispatch, and a
second "cancel" leaves the state unchanged. -/
theorem HandleCallback_cancel_clears_draft (svc : BroadcastService) (env : Env)
    (s : Sessions) (sender : User) (msg : Option Message) :
    HandleCallback svc env s
        { Message := msg,
          CallbackQuery := some { From := sender, Data := "broadcast_cancel" } }
      = Except.ok
          ({ s with pendingMessages := Delete s.pendingMessages sender.ID },
           [Effect.sendMessage BotRef.service sender.ID
                 (svc.tm sender.LanguageCode "broadcast_canceled") none]) ∧
    Delete s.pendingMessages sender.ID sender.ID = none ∧
    phase { s with pendingMessages := Delete s.pendingMessages sender.ID } sender.ID
      = (if phase s sender.ID = Phase.AWAITING_DRAFT then Phase.AWAITING_DRAFT
         else Phase.NONE) ∧
    dispatches [Effect.sendMessage BotRef.service sender.ID
          (svc.tm sender.LanguageCode "broadcast_canceled") none] = 0 ∧
    HandleCallback svc env { s with pendingMessages := Delete s.pendingMessages sender.ID }
        { Message := msg,
          CallbackQuery := some { From := sender, Data := "broadcast_cancel" } }
      = Except.ok
          ({ s with pendingMessages := Delete s.pendingMessages sender.ID },
           [Effect.sendMessage BotRef.service sender.ID
                 (svc.tm sender.LanguageCode "broadcast_canceled") none]) := by
  refine ⟨?_, Delete_same _ _, ?_, rfl, ?_⟩
  · simp [HandleCallback, sendText]
  · cases hw : s.waitingMessages sender.ID with
    | none => cases hp : s.pendingMessages sender.ID <;> simp [phase, hw, hp, Delete]
    | some b => simp [phase, hw]
  · simp [HandleCallback, sendText, Delete_Delete]

/-! ## The session invariant (C3) -/

theorem exclusive_Delete_pending (s : Sessions) (k : Int) (h : Exclusive s) :
    Exclusive { s with pendingMessages := Delete s.pendingMessages k } := by
  intro j
  rcases h j with hw | hp
  · exact Or.inl hw
  · right
    by_cases hj : j = k <;> simp [Delete, hj, hp]

theorem step_preserves_exclusive (svc : BroadcastService) (s s1 : Sessions) (ev : Event)
    (t : List Effect) (hex : Exclusive s) (hguard : invokeFindsNoDraft svc s ev)
    (hstep : step svc s ev = Except.ok (s1, t)) : Exclusive s1 := by
  cases ev with
  | Invoke update =>
    simp only [step, HandleBroadcastCommand] at hstep
    cases hm : update.Message with
    | none => simp [hm] at hstep
    | some m =>
      cases hf : m.From with
      | none => simp [hm, hf] at hstep
      | some sender =>
        by_cases ha : sender.ID = svc.adminID
        · simp [hm, hf, ha] at hstep
          have hnone : s.pendingMessages m.Chat.ID = none := hguard m sender hm hf ha
          rw [← hstep.1]
          intro j
          by_cases hj : j = m.Chat.ID
          · right
            simpa [hj] using hnone
          · rcases hex j with hw | hp
            · left
              simp [Store, hj, hw]
            · exact Or.inr hp
        · simp [hm, hf, ha] at hstep
          rw [← hstep.1]
          exact hex
  | CandidateMessage update =>
    simp only [step, HandleTextMessage] at hstep
    cases hm : update.Message with
    | none =>
      simp [hm] at hstep
      rw [← hstep.1]
      exact hex
    | some m =>
      cases hw : s.waitingMessages m.Chat.ID with
      | none =>
        simp [hm, hw] at hstep
        rw [← hstep.1]
        exact hex
      | some b =>
        cases hf : m.From with
        | none => simp [hm, hw, hf] at hstep
        | some sender =>
          simp [hm, hw, hf] at hstep
          rw [← hstep.1]
          intro j
          by_cases hj : j = m.Chat.ID
          · left
            simp [Delete, hj]
          · rcases hex j with hw1 | hp
            · left
              simp [Delete, hj, hw1]
            · right
              simp [Store, hj, hp]
  | ConfirmationChoice env update =>
    simp only [step, HandleCallback] at hstep
    cases hc : update.CallbackQuery with
    | none => simp [hc] at hstep
    | some cb =>
      by_cases h1 : cb.Data = "broadcast_confirm"
      · cases hp : s.pendingMessages cb.From.ID with
        | none =>
          simp [hc, h1, hp] at hstep
          rw [← hstep.1]
          exact hex
        | some draft =>
          cases hd : sendToAllUsers env draft with
          | error f => simp [hc, h1, hp, hd] at hstep
          | ok sent =>
            simp [hc, h1, hp, hd] at hstep
            rw [← hstep.1]
            exact exclusive_Delete_pending s _ hex
      · by_cases h2 : cb.Data = "broadcast_cancel"
        · simp [hc, h2] at hstep
          rw [← hstep.1]
          exact exclusive_Delete_pending s _ hex
        · simp [hc, h1, h2] at hstep
          rw [← hstep.1]
          exact hex

theorem run_preserves_exclusive (svc : BroadcastService) (evs : List Event) (s s1 : Sessions)
    (t : List Effect) (hex : Exclusive s) (horder : orderly svc s evs)
    (hrun : run svc s evs = Except.ok (s1, t)) : Exclusive s1 := by
  induction evs generalizing s t with
  | nil =>
    simp [run] at hrun
    rw [← hrun.1]
    exact hex
  | cons ev evs ih =>
    simp only [run] at hrun
    simp only [orderly] at horder
    cases hs : step svc s ev with
    | error f => simp [hs] at hrun
    | ok r =>
      obtain ⟨s2, t2⟩ := r
      cases hr : run svc s2 evs with
      | error f => simp [hs, hr] at hrun
      | ok r2 =>
        obtain ⟨s3, t3⟩ := r2
        simp [hs, hr] at hrun
        have hex2 : Exclusive s2 := step_preserves_exclusive svc s s2 ev t2 hex horder.1 hs
        have horder2 : orderly svc s2 evs := by
          have h := horder.2
          simpa [hs] using h
        exact ih s2 t3 hex2 horder2 (by rw [hr, hrun.1])

/-- C3 as stated fails: on a fresh service the admin invokes, sends the text
"Sale today!" and invokes again; the admin's chat is then in the awaiting-draft
table and still holds the draft "Sale today!" in the pending table. -/
theorem invoke_keeps_prior_draft_counterexample :
    ∃ s t,
      run shopService emptySessions
          [Event.Invoke (messageUpdate (textMessage adminUser 1 "/broadcast")),
           Event.CandidateMessage (messageUpdate (textMessage adminUser 1 "Sale today!")),
           Event.Invoke (messageUpdate (textMessage adminUser 1 "/broadcast"))]
        = Except.ok (s, t) ∧
      s.waitingMessages 1 = some true ∧
      s.pendingMessages 1 = some (textMessage adminUser 1 "Sale today!") ∧
      ¬ Exclusive s := by
  refine ⟨_, _, rfl, ?_, ?_, ?_⟩
  · simp [Store, textMessage]
  · simp [Store, textMessage]
  · intro h
    have h1 := h 1
    simp [Store, textMessage] at h1

/-- C3 as amended: in every state reached from the empty session table by a
sequence of Invoke, CandidateMessage and ConfirmationChoice events in which no
authorized Invoke is issued for a chat that holds a pending draft, no chat is
at the same time awaiting a draft and holding a pending draft; and an
authorized Invoke issued for a chat that holds a pending draft puts the chat
in the awaiting-draft table (phase AWAITING_DRAFT) and leaves the pending
table, with the prior draft, as it was. -/
theorem exclusive_unless_invoke_over_draft (svc : BroadcastService) (evs : List Event)
    (s1 : Sessions) (t : List Effect) (s : Sessions) (m : Message) (sender : User)
    (cq : Option CallbackQuery) (draft : Message)
    (horder : orderly svc emptySessions evs)
    (hrun : run svc emptySessions evs = Except.ok (s1, t))
    (hfrom : m.From = some sender) (hadmin : sender.ID = svc.adminID)
    (hdraft : s.pendingMessages m.Chat.ID = some draft) :
    Exclusive s1 ∧
      HandleBroadcastCommand svc s { Message := some m, CallbackQuery := cq }
        = Except.ok
            ({ s with waitingMessages := Store s.waitingMessages m.Chat.ID true },
             [Effect.sendMessage BotRef.service m.Chat.ID
                   (svc.tm sender.LanguageCode "broadcast_send_prompt") none]) ∧
      phase { s with waitingMessages := Store s.waitingMessages m.Chat.ID true } m.Chat.ID
        = Phase.AWAITING_DRAFT ∧
      ({ s with waitingMessages := Store s.waitingMessages m.Chat.ID true } : Sessions).pendingMessages
          m.Chat.ID = some draft := by
  refine ⟨run_preserves_exclusive svc evs emptySessions s1 t exclusive_emptySessions horder hrun,
    ?_, ?_, hdraft⟩
  · simp [HandleBroadcastCommand, sendText, hfrom, hadmin]
  · simp [phase, Store]

/-- C3 as amended, at the admin who invoked and sent "Sale today!" on a fresh
service: the state reached is exclusive, and a second Invoke there keeps the
draft while the chat awaits a draft again. -/
theorem exclusive_unless_invoke_over_draft_witness :
    Exclusive
        { waitingMessages := Delete (Store emptySessions.waitingMessages 1 true) 1,
          pendingMessages :=
            Store emptySessions.pendingMessages 1 (textMessage adminUser 1 "Sale today!") } ∧
      phase
          { waitingMessages :=
              Store (Delete (Store emptySessions.waitingMessages 1 true) 1) 1 true,
            pendingMessages :=
              Store emptySessions.pendingMessages 1 (textMessage adminUser 1 "Sale today!") }
          1 = Phase.AWAITING_DRAFT ∧
      Store emptySessions.pendingMessages 1 (textMessage adminUser 1 "Sale today!") 1
        = some (textMessage adminUser 1 "Sale today!") :=
  have h :=
    exclusive_unless_invoke_over_draft shopService
      [Event.Invoke (messageUpdate (textMessage adminUser 1 "/broadcast")),
       Event.CandidateMessage (messageUpdate (textMessage adminUser 1 "Sale today!"))]
      { waitingMessages := Delete (Store emptySessions.waitingMessages 1 true) 1,
        pendingMessages :=
          Store emptySessions.pendingMessages 1 (textMessage adminUser 1 "Sale today!") }
      [Effect.sendMessage BotRef.service 1 "broadcast_send_prompt" none,
       Effect.sendMessage BotRef.handler 1 "broadcast_preview"
         (some [[{ Text := "broadcast_send_button", CallbackData := "broadcast_confirm" },
                 { Text := "broadcast_cancel_button", CallbackData := "broadcast_cancel" }]])]
      { waitingMessages := Delete (Store emptySessions.waitingMessages 1 true) 1,
        pendingMessages :=
          Store emptySessions.pendingMessages 1 (textMessage adminUser 1 "Sale today!") }
      (textMessage adminUser 1 "/broadcast") adminUser none
      (textMessage adminUser 1 "Sale today!")
      (by
        refine ⟨?_, ?_, trivial⟩
        · intro m sender _ _ _
          rfl
        · trivial)
      rfl rfl rfl (by simp [Store, textMessage])
  ⟨h.1, h.2.2.1, h.2.2.2⟩

/-! ## End to end (C9) -/

/-- C9 (happy path): on a fresh service, with the admin as sender of the
Invoke and the chat `k` as the conversation of all three events, the Invoke
produces the prompt and phase AWAITING_DRAFT; a following message with
non-empty text produces the preview with the tokens `broadcast_confirm` and
`broadcast_cancel`, no directory query, and phase AWAITING_CONFIRMATION; a
following "send" choice, with three recipients in the directory and no
transport error, queries the directory, makes three send-text calls with the
draft's text, one per recipient and in order, records no failure, reports
"broadcast sent" and leaves the tables empty (phase NONE). -/
theorem happy_path (svc : BroadcastService) (k : Int) (admin sender presser : User)
    (m0 m1 : Message) (cq0 cq1 : Option CallbackQuery) (msg2 : Option Message) (env : Env)
    (c1 c2 c3 : Customer)
    (hadmin : admin.ID = svc.adminID) (h0from : m0.From = some admin) (h0chat : m0.Chat.ID = k)
    (h1from : m1.From = some sender) (h1chat : m1.Chat.ID = k) (h1text : m1.Text ≠ "")
    (hpress : presser.ID = k) (hdir : env.FindAll = Except.ok [c1, c2, c3])
    (hsend : ∀ i, env.SendErr i = none) :
    (∃ s, HandleBroadcastCommand svc emptySessions { Message := some m0, CallbackQuery := cq0 }
        = Except.ok (s, [Effect.sendMessage BotRef.service k
              (svc.tm admin.LanguageCode "broadcast_send_prompt") none]) ∧
      phase s k = Phase.AWAITING_DRAFT) ∧
    (∃ s, run svc emptySessions
          [Event.Invoke { Message := some m0, CallbackQuery := cq0 },
           Event.CandidateMessage { Message := some m1, CallbackQuery := cq1 }]
        = Except.ok
            (s,
             [Effect.sendMessage BotRef.service k
                   (svc.tm admin.LanguageCode "broadcast_send_prompt") none,
              Effect.sendMessage BotRef.handler k (svc.tm sender.LanguageCode "broadcast_preview")
                (some [[{ Text := svc.tm sender.LanguageCode "broadcast_send_button",
                          CallbackData := "broadcast_confirm" },
                        { Text := svc.tm sender.LanguageCode "broadcast_cancel_button",
                          CallbackData := "broadcast_cancel" }]])]) ∧
      phase s k = Phase.AWAITING_CONFIRMATION) ∧
    run svc emptySessions
        [Event.Invoke { Message := some m0, CallbackQuery := cq0 },
         Event.CandidateMessage { Message := some m1, CallbackQuery := cq1 },
         Event.ConfirmationChoice env
           { Message := msg2,
             CallbackQuery := some { From := presser, Data := "broadcast_confirm" } }]
      = Except.ok
          (emptySessions,
           [Effect.sendMessage BotRef.service k
                 (svc.tm admin.LanguageCode "broadcast_send_prompt") none,
            Effect.sendMessage BotRef.handler k (svc.tm sender.LanguageCode "broadcast_preview")
              (some [[{ Text := svc.tm sender.LanguageCode "broadcast_send_button",
                        CallbackData := "broadcast_confirm" },
                      { Text := svc.tm sender.LanguageCode "broadcast_cancel_button",
                        CallbackData := "broadcast_cancel" }]]),
            Effect.findAll,
            Effect.sendMessage BotRef.service c1.TelegramID m1.Text none,
            Effect.sendMessage BotRef.service c2.TelegramID m1.Text none,
            Effect.sendMessage BotRef.service c3.TelegramID m1.Text none,
            Effect.sendMessage BotRef.handler k (svc.tm presser.LanguageCode "broadcast_sent")
              none]) ∧
    failures
        [Effect.findAll,
         Effect.sendMessage BotRef.service c1.TelegramID m1.Text none,
         Effect.sendMessage BotRef.service c2.TelegramID m1.Text none,
         Effect.sendMessage BotRef.service c3.TelegramID m1.Text none] = [] ∧
    attempts
        [Effect.findAll,
         Effect.sendMessage BotRef.service c1.TelegramID m1.Text none,
         Effect.sendMessage BotRef.service c2.TelegramID m1.Text none,
         Effect.sendMessage BotRef.service c3.TelegramID m1.Text none]
      = [c1.TelegramID, c2.TelegramID, c3.TelegramID] ∧
    phase emptySessions k = Phase.NONE := by
  subst h0chat
  refine ⟨?_, ?_, ?_, rfl, rfl, rfl⟩
  · refine ⟨{ emptySessions with
              waitingMessages := Store emptySessions.waitingMessages m0.Chat.ID true }, ?_, ?_⟩
    · simp [HandleBroadcastCommand, sendText, h0from, hadmin]
    · simp [phase, Store]
  · refine ⟨{ waitingMessages :=
                (Delete (Store emptySessions.waitingMessages m0.Chat.ID true) m0.Chat.ID),
              pendingMessages := Store emptySessions.pendingMessages m0.Chat.ID m1 }, ?_, ?_⟩
    · simp [run, step, HandleBroadcastCommand, HandleTextMessage, h0from, hadmin, h1from,
        h1chat, Store_same, sendText]
    · simp [phase, Store, Delete]
  · have hfinal :
        ({ waitingMessages :=
             (Delete (Store emptySessions.waitingMessages m0.Chat.ID true) m0.Chat.ID),
           pendingMessages :=
             (Delete (Store emptySessions.pendingMessages m0.Chat.ID m1) m0.Chat.ID) } :
          Sessions) = emptySessions := by
      simp only [emptySessions, Delete_Store]
      congr 1 <;> funext j <;> simp [Delete]
    simp [run, step, HandleBroadcastCommand, HandleTextMessage, HandleCallback, sendToAllUsers,
      sendLoop, sendToUser, logIfError, h0from, hadmin, h1from, h1chat, h1text, hpress, hdir,
      hsend, Store_same, sendText]
    exact hfinal

/-- C9, at the admin writing in the private chat 1: Invoke, the text "Sale
today!", then "send" with three recipients and a transport that never fails. -/
theorem happy_path_witness :
    run shopService emptySessions
        [Event.Invoke (messageUpdate (textMessage adminUser 1 "/broadcast")),
         Event.CandidateMessage (messageUpdate (textMessage adminUser 1 "Sale today!")),
         Event.ConfirmationChoice calmEnv (callbackUpdate adminUser "broadcast_confirm")]
      = Except.ok
          (emptySessions,
           [Effect.sendMessage BotRef.service 1 "broadcast_send_prompt" none,
            Effect.sendMessage BotRef.handler 1 "broadcast_preview"
              (some [[{ Text := "broadcast_send_button", CallbackData := "broadcast_confirm" },
                      { Text := "broadcast_cancel_button",
                        CallbackData := "broadcast_cancel" }]]),
            Effect.findAll,
            Effect.sendMessage BotRef.service 101 "Sale today!" none,
            Effect.sendMessage BotRef.service 102 "Sale today!" none,
            Effect.sendMessage BotRef.service 103 "Sale today!" none,
            Effect.sendMessage BotRef.handler 1 "broadcast_sent" none]) :=
  (happy_path shopService 1 adminUser adminUser adminUser
    (textMessage adminUser 1 "/broadcast") (textMessage adminUser 1 "Sale today!")
    none none none calmEnv
    { ID := 1, TelegramID := 101 } { ID := 2, TelegramID := 102 } { ID := 3, TelegramID := 103 }
    rfl rfl rfl rfl rfl (by decide) rfl rfl (fun _ => rfl)).2.2.1

end Broadcast
